import Mathlib

/-!
Shallow embedding of the real-time player-state synchronization subsystem of
the phaser3 multiplayer game starter server (`src/server.js`, socket layer).

The modelled code is:

  const players = new Map();

  io.use((socket, next) => {                       -- credential gate
    const cookies = parseCookie(...); const token = cookies[COOKIE_NAME];
    if (!token) return next(new Error('Unauthorized'));
    try { socket.user = jwt.verify(token, JWT_SECRET); next(); }
    catch (err) { next(new Error('Unauthorized')); }
  });

  io.on('connection', (socket) => {
    const playerState = { id: socket.id, userId: .., username: .., x: 100, y: 100, hp: 100 };
    players.set(socket.id, playerState);
    socket.emit('currentPlayers', Array.from(players.values()));
    socket.broadcast.emit('playerJoined', playerState);

    socket.on('playerState', (state) => {
      const current = players.get(socket.id);
      if (!current) return;
      players.set(socket.id, { ...current, ...state });
      io.emit('playerStateUpdate', { id: socket.id, ...players.get(socket.id) });
    });

    socket.on('disconnect', () => {
      players.delete(socket.id);
      socket.broadcast.emit('playerLeft', { id: socket.id });
    });
  });

JS objects are association lists of fields (later bindings shadow earlier
ones, as with object spread), the `players` Map is an association list with
JS `Map` semantics (`set` replaces in place, `delete` filters), and each
event handler is a list of micro-commands interpreted in program order, so
that ordering claims (removal before announcement) are about the command
trace of the source.
-/

namespace MpGame

/-- A JavaScript runtime value, as far as the modelled handlers inspect one:
numbers (modelled as integers; every coordinate in the claims is integral),
strings, and `undefined`. -/
inductive JsVal where
  | num (n : Int)
  | str (s : String)
  | undefined
deriving DecidableEq

/-- A JavaScript object: a list of fields where a later binding for the same
key shadows an earlier one (spread semantics). -/
abbrev JsObj := List (String × JsVal)

/-- Whether the object has a binding for `k`. -/
def hasKey (o : JsObj) (k : String) : Bool :=
  o.any (fun p => p.1 == k)

/-- Field access `o[k]`: the last binding for `k` wins, `undefined` if none. -/
def getF : JsObj → String → JsVal
  | [], _ => .undefined
  | p :: t, k =>
      if hasKey t k then getF t k
      else if p.1 == k then p.2 else .undefined

/-- Object spread `{ ...a, ...b }`: bindings of `b` shadow those of `a`. -/
def spreadObj (a b : JsObj) : JsObj := a ++ b

/-- The `players` Map: connection id to player object, in insertion order. -/
abbrev Registry := List (String × JsObj)

/-- The connection ids currently present in the Map. -/
def keys (r : Registry) : List String := r.map (fun p => p.1)

/-- `players.get(k)`. -/
def regGet : Registry → String → Option JsObj
  | [], _ => none
  | p :: t, k => if p.1 == k then some p.2 else regGet t k

/-- `players.set(k, v)`: replaces in place if the key exists (JS `Map`
preserves insertion order), otherwise appends. -/
def regSet (r : Registry) (k : String) (v : JsObj) : Registry :=
  if r.any (fun p => p.1 == k) then
    r.map (fun p => if p.1 == k then (k, v) else p)
  else
    r ++ [(k, v)]

/-- `players.delete(k)`: removes the entry, no-op if absent. -/
def regDelete (r : Registry) (k : String) : Registry :=
  r.filter (fun p => p.1 != k)

/-- `Array.from(players.values())`. -/
def regValues (r : Registry) : List JsObj := r.map (fun p => p.2)

/-- Fan-out target of an emit: `io.emit` (all), `socket.broadcast.emit`
(all except the socket), `socket.emit` (only the socket). -/
inductive Recipients where
  | all
  | allExcept (cid : String)
  | only (cid : String)
deriving DecidableEq

/-- Resolve a fan-out target against the list of open connections. -/
def recipientsOf (conns : List String) : Recipients → List String
  | .all => conns
  | .allExcept cid => conns.filter (fun c => c ≠ cid)
  | .only cid => conns.filter (fun c => c = cid)

/-- An event payload: a single object or an array of objects. -/
inductive Payload where
  | obj (o : JsObj)
  | arr (l : List JsObj)
deriving DecidableEq

/-- One outbound emit: target, event name, payload. -/
structure Emit where
  recips : Recipients
  event : String
  payload : Payload
deriving DecidableEq

/-- A micro-command of a handler body, one per source statement touching the
registry or the wire; payload-producing commands read the registry at the
moment they execute, as the source statements do. -/
inductive Cmd where
  | setEntry (k : String) (v : JsObj)
  | delEntry (k : String)
  | emitSnapshot (cid : String)
  | emitJoined (cid : String) (p : JsObj)
  | emitUpdate (cid : String)
  | emitLeft (cid : String)
deriving DecidableEq

/-- Execute one command against the current registry. -/
def runCmd (r : Registry) : Cmd → Registry × List Emit
  | .setEntry k v => (regSet r k v, [])
  | .delEntry k => (regDelete r k, [])
  | .emitSnapshot cid =>
      (r, [⟨.only cid, "currentPlayers", .arr (regValues r)⟩])
  | .emitJoined cid p =>
      (r, [⟨.allExcept cid, "playerJoined", .obj p⟩])
  | .emitUpdate cid =>
      (r, [⟨.all, "playerStateUpdate",
            .obj (spreadObj [("id", .str cid)] ((regGet r cid).getD []))⟩])
  | .emitLeft cid =>
      (r, [⟨.allExcept cid, "playerLeft", .obj [("id", .str cid)]⟩])

/-- Execute a handler body in program order, threading the registry and
collecting emits. -/
def run (r : Registry) : List Cmd → Registry × List Emit
  | [] => (r, [])
  | c :: cs =>
      let p := runCmd r c
      let q := run p.1 cs
      (q.1, p.2 ++ q.2)

/-- The object literal built at the top of the connection handler. -/
def initialPlayer (cid : String) (userId : Int) (username : String) : JsObj :=
  [("id", .str cid), ("userId", .num userId), ("username", .str username),
   ("x", .num 100), ("y", .num 100), ("hp", .num 100)]

/-- Body of `io.on('connection', ...)` before the per-socket listeners attach:
insert the fresh player, unicast the roster snapshot, broadcast the join. -/
def connectionCmds (cid : String) (userId : Int) (username : String) : List Cmd :=
  [.setEntry cid (initialPlayer cid userId username),
   .emitSnapshot cid,
   .emitJoined cid (initialPlayer cid userId username)]

/-- Body of `socket.on('playerState', ...)`: the `if (!current) return;`
guard, then set the spread-merged object and emit the update to everyone. -/
def playerStateCmds (r : Registry) (cid : String) (state : JsObj) : List Cmd :=
  match regGet r cid with
  | none => []
  | some current => [.setEntry cid (spreadObj current state), .emitUpdate cid]

/-- Body of `socket.on('disconnect', ...)`: delete, then broadcast the leave. -/
def disconnectCmds (cid : String) : List Cmd :=
  [.delEntry cid, .emitLeft cid]

/-- The connection handler as a registry transformer with its emits. -/
def onConnection (r : Registry) (cid : String) (userId : Int) (username : String) :
    Registry × List Emit :=
  run r (connectionCmds cid userId username)

/-- The `playerState` handler as a registry transformer with its emits. -/
def onPlayerState (r : Registry) (cid : String) (state : JsObj) :
    Registry × List Emit :=
  run r (playerStateCmds r cid state)

/-- The `disconnect` handler as a registry transformer with its emits. -/
def onDisconnect (r : Registry) (cid : String) : Registry × List Emit :=
  run r (disconnectCmds cid)

/-- Outcome classes of the handshake credential as `io.use` distinguishes
them: no cookie at all, or `jwt.verify` throwing (malformed token, expired
token, bad signature), or `jwt.verify` succeeding with the embedded claim. -/
inductive Cred where
  | absent
  | malformed
  | expired
  | badSignature
  | valid (userId : Int) (username : String)
deriving DecidableEq

/-- The check performed by the `io.use` middleware: only a verified token
yields an identity claim, every other case calls `next(new Error(...))`. -/
def verifyCred : Cred → Option (Int × String)
  | .valid u n => some (u, n)
  | _ => none

/-- Whole-server state: the open (accepted) connections and the `players`
Map shared by all handlers. -/
structure SState where
  conns : List String
  players : Registry
deriving DecidableEq

/-- The transport-level events the socket layer reacts to. -/
inductive Event where
  | connect (cid : String) (cred : Cred)
  | playerState (cid : String) (state : JsObj)
  | disconnect (cid : String)
deriving DecidableEq

/-- One event processed to completion (the single-threaded event loop).
A `connect` with a failing credential is refused by the middleware: the
connection handler never runs and the socket never becomes open. Message
and disconnect events only arrive from sockets that are open. -/
def step (st : SState) : Event → SState × List Emit
  | .connect cid cred =>
      match verifyCred cred with
      | none => (st, [])
      | some (uid, uname) =>
          let p := onConnection st.players cid uid uname
          (⟨st.conns ++ [cid], p.1⟩, p.2)
  | .playerState cid state =>
      if cid ∈ st.conns then
        let p := onPlayerState st.players cid state
        (⟨st.conns, p.1⟩, p.2)
      else (st, [])
  | .disconnect cid =>
      if cid ∈ st.conns then
        let p := onDisconnect st.players cid
        (⟨st.conns.filter (fun c => c ≠ cid), p.1⟩, p.2)
      else (st, [])

/-! ### Basic facts about the registry and object operations -/

theorem keys_cons (p : String × JsObj) (t : Registry) :
    keys (p :: t) = p.1 :: keys t := rfl

theorem regGet_eq_none_iff (r : Registry) (k : String) :
    regGet r k = none ↔ k ∉ keys r := by
  induction r with
  | nil => simp [regGet, keys]
  | cons p t ih =>
      rw [keys_cons, List.mem_cons]
      by_cases h : p.1 = k
      · simp only [regGet, if_pos (by simp [h] : (p.1 == k) = true)]
        simp [h]
      · simp only [regGet, if_neg (by simp [h] : ¬ (p.1 == k) = true)]
        rw [ih]
        constructor
        · intro hk hor
          rcases hor with hor | hor
          · exact h hor.symm
          · exact hk hor
        · intro hk hor
          exact hk (Or.inr hor)

theorem mem_keys_of_regGet_some {r : Registry} {k : String} {v : JsObj}
    (h : regGet r k = some v) : k ∈ keys r := by
  by_contra hk
  rw [(regGet_eq_none_iff r k).mpr hk] at h
  exact Option.noConfusion h

theorem any_key_eq_false {r : Registry} {k : String} (h : k ∉ keys r) :
    r.any (fun p => p.1 == k) = false := by
  induction r with
  | nil => rfl
  | cons p t ih =>
      rw [keys_cons, List.mem_cons] at h
      push_neg at h
      rw [List.any_cons, ih h.2, Bool.or_false, beq_eq_false_iff_ne]
      exact Ne.symm h.1

theorem any_key_eq_true {r : Registry} {k : String} (h : k ∈ keys r) :
    r.any (fun p => p.1 == k) = true := by
  induction r with
  | nil => simp [keys] at h
  | cons p t ih =>
      rw [keys_cons, List.mem_cons] at h
      rw [List.any_cons]
      rcases h with h | h
      · simp [h]
      · simp [ih h]

theorem regSet_eq_append {r : Registry} {k : String} (v : JsObj) (h : k ∉ keys r) :
    regSet r k v = r ++ [(k, v)] := by
  rw [regSet, if_neg]
  rw [any_key_eq_false h]
  simp

theorem keys_append (r s : Registry) : keys (r ++ s) = keys r ++ keys s := by
  simp [keys]

theorem keys_map_replace (r : Registry) (k : String) (v : JsObj) :
    keys (r.map (fun p => if p.1 == k then (k, v) else p)) = keys r := by
  induction r with
  | nil => rfl
  | cons p t ih =>
      rw [List.map_cons, keys_cons, keys_cons, ih]
      by_cases hpk : p.1 = k
      · rw [if_pos (by simp [hpk] : (p.1 == k) = true)]
        simp [hpk]
      · rw [if_neg (by simp [hpk] : ¬ (p.1 == k) = true)]

theorem keys_regSet_of_mem {r : Registry} {k : String} (v : JsObj) (h : k ∈ keys r) :
    keys (regSet r k v) = keys r := by
  rw [regSet, if_pos (any_key_eq_true h)]
  exact keys_map_replace r k v

theorem regGet_map_replace {r : Registry} {k : String} (v : JsObj) (h : k ∈ keys r) :
    regGet (r.map (fun p => if p.1 == k then (k, v) else p)) k = some v := by
  induction r with
  | nil => simp [keys] at h
  | cons p t ih =>
      rw [keys_cons, List.mem_cons] at h
      by_cases hpk : p.1 = k
      · rw [List.map_cons, if_pos (by simp [hpk] : (p.1 == k) = true)]
        simp [regGet]
      · rw [List.map_cons, if_neg (by simp [hpk] : ¬ (p.1 == k) = true)]
        simp only [regGet, if_neg (by simp [hpk] : ¬ (p.1 == k) = true)]
        rcases h with h | h
        · exact absurd h.symm hpk
        · exact ih h

theorem regGet_append_self {r : Registry} {k : String} (v : JsObj) (h : k ∉ keys r) :
    regGet (r ++ [(k, v)]) k = some v := by
  induction r with
  | nil => simp [regGet]
  | cons p t ih =>
      rw [keys_cons, List.mem_cons] at h
      push_neg at h
      rw [List.cons_append]
      simp only [regGet, if_neg (by simp [Ne.symm h.1] : ¬ (p.1 == k) = true)]
      exact ih h.2

theorem regGet_regSet_self (r : Registry) (k : String) (v : JsObj) :
    regGet (regSet r k v) k = some v := by
  by_cases h : k ∈ keys r
  · rw [regSet, if_pos (any_key_eq_true h)]
    exact regGet_map_replace v h
  · rw [regSet_eq_append v h]
    exact regGet_append_self v h

theorem keys_regDelete (r : Registry) (k : String) :
    keys (regDelete r k) = (keys r).filter (fun c => c ≠ k) := by
  induction r with
  | nil => rfl
  | cons p t ih =>
      simp only [regDelete, List.filter_cons] at ih ⊢
      rw [keys_cons, List.filter_cons]
      by_cases h : p.1 = k
      · rw [if_neg (by simp [h] : ¬ (p.1 != k) = true),
          if_neg (by simp [h] : ¬ (decide (p.1 ≠ k)) = true)]
        exact ih
      · rw [if_pos (by simp [h] : (p.1 != k) = true),
          if_pos (by simp [h] : (decide (p.1 ≠ k)) = true), keys_cons, ih]

theorem regDelete_eq_self {r : Registry} {k : String} (h : k ∉ keys r) :
    regDelete r k = r := by
  induction r with
  | nil => rfl
  | cons p t ih =>
      rw [keys_cons, List.mem_cons] at h
      push_neg at h
      simp only [regDelete, List.filter_cons] at ih ⊢
      rw [if_pos (by simp [Ne.symm h.1] : (p.1 != k) = true), ih h.2]

theorem regGet_regDelete_self (r : Registry) (k : String) :
    regGet (regDelete r k) k = none := by
  rw [regGet_eq_none_iff, keys_regDelete]
  simp

theorem hasKey_cons (p : String × JsVal) (t : JsObj) (k : String) :
    hasKey (p :: t) k = ((p.1 == k) || hasKey t k) := by
  simp [hasKey, List.any_cons]

theorem getF_eq_undef_of_not_hasKey {o : JsObj} {k : String} (h : hasKey o k = false) :
    getF o k = .undefined := by
  induction o with
  | nil => rfl
  | cons p t ih =>
      rw [hasKey_cons, Bool.or_eq_false_iff] at h
      simp only [getF]
      rw [if_neg (by simp [h.2] : ¬ (hasKey t k) = true),
        if_neg (by simp [h.1] : ¬ (p.1 == k) = true)]

theorem getF_spread_of_not_hasKey {b : JsObj} {k : String} (a : JsObj)
    (h : hasKey b k = false) : getF (spreadObj a b) k = getF a k := by
  induction a with
  | nil =>
      show getF b k = JsVal.undefined
      exact getF_eq_undef_of_not_hasKey h
  | cons p t ih =>
      have hb : hasKey (t ++ b) k = hasKey t k := by
        simp only [hasKey, List.any_append] at h ⊢
        rw [h, Bool.or_false]
      simp only [spreadObj] at ih
      simp only [spreadObj, List.cons_append, getF, List.append_eq]
      rw [hb, ih]

/-! ### Handler unfolding lemmas -/

theorem onConnection_eq (r : Registry) (cid : String) (uid : Int) (uname : String) :
    onConnection r cid uid uname =
      (regSet r cid (initialPlayer cid uid uname),
       [⟨.only cid, "currentPlayers",
          .arr (regValues (regSet r cid (initialPlayer cid uid uname)))⟩,
        ⟨.allExcept cid, "playerJoined", .obj (initialPlayer cid uid uname)⟩]) := rfl

theorem onPlayerState_of_some {r : Registry} {cid : String} {current : JsObj}
    (state : JsObj) (h : regGet r cid = some current) :
    onPlayerState r cid state =
      (regSet r cid (spreadObj current state),
       [⟨.all, "playerStateUpdate",
          .obj (spreadObj [("id", .str cid)] (spreadObj current state))⟩]) := by
  simp [onPlayerState, playerStateCmds, h, run, runCmd, regGet_regSet_self]

theorem onPlayerState_of_none {r : Registry} {cid : String} (state : JsObj)
    (h : regGet r cid = none) :
    onPlayerState r cid state = (r, []) := by
  simp [onPlayerState, playerStateCmds, h, run]

theorem onDisconnect_eq (r : Registry) (cid : String) :
    onDisconnect r cid =
      (regDelete r cid,
       [⟨.allExcept cid, "playerLeft", .obj [("id", .str cid)]⟩]) := rfl

theorem step_connect_valid (st : SState) (cid : String) (uid : Int) (uname : String) :
    step st (.connect cid (.valid uid uname)) =
      (⟨st.conns ++ [cid], (onConnection st.players cid uid uname).1⟩,
       (onConnection st.players cid uid uname).2) := rfl

theorem step_connect_fail (st : SState) (cid : String) (cred : Cred)
    (h : verifyCred cred = none) :
    step st (.connect cid cred) = (st, []) := by
  simp [step, h]

theorem step_playerState_mem (st : SState) (cid : String) (state : JsObj)
    (hc : cid ∈ st.conns) :
    step st (.playerState cid state) =
      (⟨st.conns, (onPlayerState st.players cid state).1⟩,
       (onPlayerState st.players cid state).2) := by
  simp [step, hc]

theorem step_playerState_not_mem (st : SState) (cid : String) (state : JsObj)
    (hc : cid ∉ st.conns) :
    step st (.playerState cid state) = (st, []) := by
  simp [step, hc]

theorem step_disconnect_mem (st : SState) (cid : String) (hc : cid ∈ st.conns) :
    step st (.disconnect cid) =
      (⟨st.conns.filter (fun c => c ≠ cid), (onDisconnect st.players cid).1⟩,
       (onDisconnect st.players cid).2) := by
  simp [step, hc]

theorem step_disconnect_not_mem (st : SState) (cid : String) (hc : cid ∉ st.conns) :
    step st (.disconnect cid) = (st, []) := by
  simp [step, hc]

/-! ### The claims -/

/-- Claim C1: the claim states that out-of-bounds coordinates in a
`playerState` message are clamped into `[0, width] × [0, height]` before
being broadcast. The `playerState` handler in `src/server.js` performs no
clamping at all: with the registered player "A", an update `{x: -50, y: 100}`
is broadcast with `x = -50` (the claim requires `x = 0`), and an update
`{x: 999}` is broadcast with `x = 999` (the claim requires `x = 800` for
width 800). This theorem evaluates the embedded handler at those inputs. -/
theorem c1_broadcast_carries_raw_out_of_bounds :
    (onPlayerState [("A", initialPlayer "A" 1 "alice")] "A"
        [("x", .num (-50)), ("y", .num 100)]).2 =
      [⟨.all, "playerStateUpdate", .obj (spreadObj [("id", .str "A")]
        (spreadObj (initialPlayer "A" 1 "alice")
          [("x", .num (-50)), ("y", .num 100)]))⟩] ∧
    getF (spreadObj [("id", .str "A")] (spreadObj (initialPlayer "A" 1 "alice")
      [("x", .num (-50)), ("y", .num 100)])) "x" = .num (-50) ∧
    (onPlayerState [("A", initialPlayer "A" 1 "alice")] "A" [("x", .num 999)]).2 =
      [⟨.all, "playerStateUpdate", .obj (spreadObj [("id", .str "A")]
        (spreadObj (initialPlayer "A" 1 "alice") [("x", .num 999)]))⟩] ∧
    getF (spreadObj [("id", .str "A")]
      (spreadObj (initialPlayer "A" 1 "alice") [("x", .num 999)])) "x" = .num 999 := by
  decide

/-- Claim C2 counterexample: the claim states that a malformed `playerState`
payload (e.g. `x: "abc"`) leaves the registry entry unchanged and emits no
broadcast. The handler has no validation: spreading `{x: "abc"}` over the
stored player changes the entry (its `x` becomes the string `"abc"`) and a
`playerStateUpdate` broadcast is emitted. -/
theorem c2_malformed_update_merged_cex :
    (onPlayerState [("A", initialPlayer "A" 1 "alice")] "A" [("x", .str "abc")]).1 ≠
      [("A", initialPlayer "A" 1 "alice")] ∧
    (onPlayerState [("A", initialPlayer "A" 1 "alice")] "A" [("x", .str "abc")]).2 ≠ [] ∧
    getF ((regGet (onPlayerState [("A", initialPlayer "A" 1 "alice")] "A"
        [("x", .str "abc")]).1 "A").getD []) "x" = .str "abc" := by
  decide

/-- Claim C2 as amended: for every `playerState` payload, malformed or not,
arriving while the sender's registry entry exists, the handler spreads the
payload's fields as-is over the stored player (so `x: "abc"` is stored as the
string `"abc"`), writes the result back, and emits one `playerStateUpdate`
broadcast to all connections; nothing is validated or dropped. -/
theorem c2_update_always_merged_and_broadcast (r : Registry) (cid : String)
    (state current : JsObj) (hr : regGet r cid = some current) :
    onPlayerState r cid state =
      (regSet r cid (spreadObj current state),
       [⟨.all, "playerStateUpdate",
          .obj (spreadObj [("id", .str cid)] (spreadObj current state))⟩]) :=
  onPlayerState_of_some state hr

/-- Witness for the amended claim C2, at the malformed payload `{x: "abc"}`
of the claim's own example. -/
theorem c2_update_always_merged_and_broadcast_witness :
    regGet [("A", initialPlayer "A" 1 "alice")] "A" = some (initialPlayer "A" 1 "alice") ∧
    onPlayerState [("A", initialPlayer "A" 1 "alice")] "A" [("x", .str "abc")] =
      (regSet [("A", initialPlayer "A" 1 "alice")] "A"
        (spreadObj (initialPlayer "A" 1 "alice") [("x", .str "abc")]),
       [⟨.all, "playerStateUpdate",
          .obj (spreadObj [("id", .str "A")]
            (spreadObj (initialPlayer "A" 1 "alice") [("x", .str "abc")]))⟩]) :=
  ⟨by decide,
   c2_update_always_merged_and_broadcast [("A", initialPlayer "A" 1 "alice")] "A"
     [("x", .str "abc")] (initialPlayer "A" 1 "alice") (by decide)⟩

/-- Claim C3 counterexample: the claim states that a `playerState` update
never changes the stored `userId`, `username` or connection-id field,
"regardless of what extra fields the client's payload contains". The spread
`{ ...current, ...state }` overwrites any field the payload names: a payload
`{userId: 999}` changes the stored `userId` from 1 to 999. -/
theorem c3_identity_overwritten_cex :
    getF ((regGet (onPlayerState [("A", initialPlayer "A" 1 "alice")] "A"
        [("userId", .num 999)]).1 "A").getD []) "userId" = .num 999 ∧
    getF (initialPlayer "A" 1 "alice") "userId" = .num 1 := by
  decide

/-- Claim C3 as amended: for every `playerState` update processed while the
sender's entry exists, the stored `id`, `userId` and `username` fields are
unchanged provided the payload itself contains none of those keys (the spread
merge protects nothing: any key the payload does carry, including the
identity keys, is overwritten, and unknown extra keys are added). -/
theorem c3_identity_preserved_without_identity_keys (r : Registry) (cid : String)
    (current state : JsObj) (hr : regGet r cid = some current)
    (h1 : hasKey state "id" = false) (h2 : hasKey state "userId" = false)
    (h3 : hasKey state "username" = false) :
    regGet (onPlayerState r cid state).1 cid = some (spreadObj current state) ∧
    getF (spreadObj current state) "id" = getF current "id" ∧
    getF (spreadObj current state) "userId" = getF current "userId" ∧
    getF (spreadObj current state) "username" = getF current "username" := by
  refine ⟨?_, getF_spread_of_not_hasKey current h1,
    getF_spread_of_not_hasKey current h2, getF_spread_of_not_hasKey current h3⟩
  rw [onPlayerState_of_some state hr]
  exact regGet_regSet_self r cid (spreadObj current state)

/-- Witness for the amended claim C3, at a payload touching only `x` and `hp`. -/
theorem c3_identity_preserved_without_identity_keys_witness :
    regGet [("A", initialPlayer "A" 1 "alice")] "A" = some (initialPlayer "A" 1 "alice") ∧
    hasKey [("x", JsVal.num 7), ("hp", JsVal.num 50)] "id" = false ∧
    (regGet (onPlayerState [("A", initialPlayer "A" 1 "alice")] "A"
        [("x", JsVal.num 7), ("hp", JsVal.num 50)]).1 "A" =
      some (spreadObj (initialPlayer "A" 1 "alice")
        [("x", JsVal.num 7), ("hp", JsVal.num 50)]) ∧
     getF (spreadObj (initialPlayer "A" 1 "alice")
        [("x", JsVal.num 7), ("hp", JsVal.num 50)]) "id" =
       getF (initialPlayer "A" 1 "alice") "id" ∧
     getF (spreadObj (initialPlayer "A" 1 "alice")
        [("x", JsVal.num 7), ("hp", JsVal.num 50)]) "userId" =
       getF (initialPlayer "A" 1 "alice") "userId" ∧
     getF (spreadObj (initialPlayer "A" 1 "alice")
        [("x", JsVal.num 7), ("hp", JsVal.num 50)]) "username" =
       getF (initialPlayer "A" 1 "alice") "username") :=
  ⟨by decide, by decide,
   c3_identity_preserved_without_identity_keys [("A", initialPlayer "A" 1 "alice")] "A"
     (initialPlayer "A" 1 "alice") [("x", JsVal.num 7), ("hp", JsVal.num 50)]
     (by decide) (by decide) (by decide) (by decide)⟩

/-- Claim C10: a `playerState` message whose sender has no registry entry is
silently ignored: the `if (!current) return;` guard makes the handler leave
the registry untouched and emit nothing. -/
theorem c10_unknown_sender_update_ignored (r : Registry) (cid : String)
    (state : JsObj) (h : regGet r cid = none) :
    onPlayerState r cid state = (r, []) :=
  onPlayerState_of_none state h

/-- Witness for claim C10: an update from the unregistered connection "B"
while only "A" is registered. -/
theorem c10_unknown_sender_update_ignored_witness :
    regGet [("A", initialPlayer "A" 1 "alice")] "B" = none ∧
    onPlayerState [("A", initialPlayer "A" 1 "alice")] "B" [("x", JsVal.num 5)] =
      ([("A", initialPlayer "A" 1 "alice")], []) :=
  ⟨by decide,
   c10_unknown_sender_update_ignored [("A", initialPlayer "A" 1 "alice")] "B"
     [("x", JsVal.num 5)] (by decide)⟩

/-- Claim C4 counterexample: the claim states that a newcomer's roster
snapshot is computed before its own insertion and therefore never contains
the newcomer itself. The connection handler runs `players.set(socket.id, ...)`
BEFORE `socket.emit('currentPlayers', Array.from(players.values()))`, so when
A joins and then B joins, B's snapshot is `[A's player, B's own player]` —
it contains B (the object whose `id` field is `"B"`). -/
theorem c4_roster_contains_self_cex :
    (step (step ⟨[], []⟩ (.connect "A" (.valid 1 "alice"))).1
        (.connect "B" (.valid 2 "bob"))).2 =
      [⟨.only "B", "currentPlayers",
         .arr [initialPlayer "A" 1 "alice", initialPlayer "B" 2 "bob"]⟩,
       ⟨.allExcept "B", "playerJoined", .obj (initialPlayer "B" 2 "bob")⟩] ∧
    getF (initialPlayer "B" 2 "bob") "id" = .str "B" := by
  decide

/-- Claim C4 as amended: the roster snapshot sent to a newly joined
connection is computed from the registry state AFTER the newcomer's own
insertion, so it contains every previously registered player and also the
newcomer itself, while every other connection receives a `playerJoined`
event for the newcomer. -/
theorem c4_roster_snapshot_after_insertion (r : Registry) (cid : String)
    (uid : Int) (uname : String) (h : cid ∉ keys r) :
    onConnection r cid uid uname =
      (r ++ [(cid, initialPlayer cid uid uname)],
       [⟨.only cid, "currentPlayers",
          .arr (regValues r ++ [initialPlayer cid uid uname])⟩,
        ⟨.allExcept cid, "playerJoined", .obj (initialPlayer cid uid uname)⟩]) := by
  rw [onConnection_eq, regSet_eq_append (initialPlayer cid uid uname) h]
  simp [regValues]

/-- Witness for the amended claim C4: A already registered, B joins; B's
snapshot is A's player followed by B's own player. -/
theorem c4_roster_snapshot_after_insertion_witness :
    "B" ∉ keys [("A", initialPlayer "A" 1 "alice")] ∧
    onConnection [("A", initialPlayer "A" 1 "alice")] "B" 2 "bob" =
      ([("A", initialPlayer "A" 1 "alice")] ++ [("B", initialPlayer "B" 2 "bob")],
       [⟨.only "B", "currentPlayers",
          .arr (regValues [("A", initialPlayer "A" 1 "alice")] ++
            [initialPlayer "B" 2 "bob"])⟩,
        ⟨.allExcept "B", "playerJoined", .obj (initialPlayer "B" 2 "bob")⟩]) :=
  ⟨by decide,
   c4_roster_snapshot_after_insertion [("A", initialPlayer "A" 1 "alice")] "B" 2 "bob"
     (by decide)⟩

/-- Claim C7: the disconnect handler first removes the player from the
registry (`players.delete(socket.id)` is the first statement of the handler
body, strictly before the `socket.broadcast.emit('playerLeft', ...)`), and
then emits exactly one `playerLeft` event whose payload carries only the
connection id, fanned out to all remaining connections (everyone except the
closed socket). -/
theorem c7_disconnect_removes_then_announces_once (r : Registry) (cid : String)
    (conns : List String) :
    regGet (onDisconnect r cid).1 cid = none ∧
    (onDisconnect r cid).2 =
      [⟨.allExcept cid, "playerLeft", .obj [("id", .str cid)]⟩] ∧
    ((onDisconnect r cid).2.countP (fun e => e.event == "playerLeft")) = 1 ∧
    recipientsOf conns (Recipients.allExcept cid) = conns.filter (fun c => c ≠ cid) ∧
    ∃ i j, i < j ∧
      (disconnectCmds cid).get? i = some (Cmd.delEntry cid) ∧
      (disconnectCmds cid).get? j = some (Cmd.emitLeft cid) := by
  refine ⟨?_, rfl, ?_, rfl, 0, 1, Nat.zero_lt_one, rfl, rfl⟩
  · rw [onDisconnect_eq]
    exact regGet_regDelete_self r cid
  · rfl

/-- Claim C8 counterexample: the claim states that processing a disconnect
for a connection whose registry entry is already gone produces no broadcast.
The handler body is unconditional: even on an empty registry it still emits a
`playerLeft` broadcast (the registry is indeed left unchanged, but a
duplicate announcement goes out). -/
theorem c8_duplicate_disconnect_broadcasts_cex :
    regGet ([] : Registry) "A" = none ∧
    onDisconnect ([] : Registry) "A" =
      ([], [⟨.allExcept "A", "playerLeft", .obj [("id", .str "A")]⟩]) := by
  decide

/-- Claim C8 as amended: processing a further disconnect signal for a
connection whose registry entry has already been removed leaves the registry
unchanged (`players.delete` is a no-op), but still emits one more
`playerLeft` broadcast — the handler is idempotent on the registry, not on
the announcement. -/
theorem c8_disconnect_after_removal_rebroadcasts (r : Registry) (cid : String)
    (h : regGet r cid = none) :
    (onDisconnect r cid).1 = r ∧
    (onDisconnect r cid).2 =
      [⟨.allExcept cid, "playerLeft", .obj [("id", .str cid)]⟩] := by
  refine ⟨?_, rfl⟩
  rw [onDisconnect_eq]
  exact regDelete_eq_self ((regGet_eq_none_iff r cid).mp h)

/-- Witness for the amended claim C8: a second disconnect for "A" after its
entry is gone, with "B" still registered. -/
theorem c8_disconnect_after_removal_rebroadcasts_witness :
    regGet [("B", initialPlayer "B" 2 "bob")] "A" = none ∧
    ((onDisconnect [("B", initialPlayer "B" 2 "bob")] "A").1 =
        [("B", initialPlayer "B" 2 "bob")] ∧
     (onDisconnect [("B", initialPlayer "B" 2 "bob")] "A").2 =
        [⟨.allExcept "A", "playerLeft", .obj [("id", .str "A")]⟩]) :=
  ⟨by decide,
   c8_disconnect_after_removal_rebroadcasts [("B", initialPlayer "B" 2 "bob")] "A"
     (by decide)⟩

/-- Claim C9: an accepted `playerState` update (sender's entry exists, sender
open) is rebroadcast with `io.emit`, i.e. fanned out to ALL open connections
— resolving the emit's target against the open-connection list includes the
sender itself, which therefore receives the server-echoed values. -/
theorem c9_update_echoed_to_all_including_sender (st : SState) (cid : String)
    (state current : JsObj) (hc : cid ∈ st.conns)
    (hr : regGet st.players cid = some current) :
    (step st (.playerState cid state)).2 =
      [⟨.all, "playerStateUpdate",
         .obj (spreadObj [("id", .str cid)] (spreadObj current state))⟩] ∧
    cid ∈ recipientsOf st.conns Recipients.all := by
  refine ⟨?_, hc⟩
  simp only [step, if_pos hc]
  rw [onPlayerState_of_some state hr]

/-- Witness for claim C9: "A" updates while "A" and "B" are open; the
broadcast goes to all and "A" is among the recipients. -/
theorem c9_update_echoed_to_all_including_sender_witness :
    "A" ∈ (SState.mk ["A", "B"] [("A", initialPlayer "A" 1 "alice"),
      ("B", initialPlayer "B" 2 "bob")]).conns ∧
    ((step (SState.mk ["A", "B"] [("A", initialPlayer "A" 1 "alice"),
        ("B", initialPlayer "B" 2 "bob")]) (.playerState "A" [("x", JsVal.num 5)])).2 =
      [⟨.all, "playerStateUpdate",
         .obj (spreadObj [("id", .str "A")]
           (spreadObj (initialPlayer "A" 1 "alice") [("x", JsVal.num 5)]))⟩] ∧
     "A" ∈ recipientsOf (SState.mk ["A", "B"] [("A", initialPlayer "A" 1 "alice"),
        ("B", initialPlayer "B" 2 "bob")]).conns Recipients.all) :=
  ⟨by decide,
   c9_update_echoed_to_all_including_sender
     (SState.mk ["A", "B"] [("A", initialPlayer "A" 1 "alice"),
       ("B", initialPlayer "B" 2 "bob")]) "A" [("x", JsVal.num 5)]
     (initialPlayer "A" 1 "alice") (by decide) (by decide)⟩

/-- Claim C5: each transition of the socket layer — join, state update, and
disconnect — preserves the invariant that the registry holds exactly one
entry per currently-open, successfully-authenticated connection (its key list
equals the open-connection list, which has no duplicates) and no entry for
any closed or unauthenticated connection. The freshness hypothesis reflects
that the transport assigns a new unique socket id to each connection. -/
theorem c5_registry_invariant_preserved (st : SState) (e : Event)
    (h1 : keys st.players = st.conns) (h2 : st.conns.Nodup)
    (hfresh : ∀ cid cred, e = .connect cid cred → cid ∉ st.conns) :
    keys (step st e).1.players = (step st e).1.conns ∧
    (step st e).1.conns.Nodup := by
  cases e with
  | connect cid cred =>
      have hcid : cid ∉ st.conns := hfresh cid cred rfl
      have hk : cid ∉ keys st.players := by rw [h1]; exact hcid
      cases cred with
      | valid uid uname =>
          rw [step_connect_valid]
          constructor
          · show keys (regSet st.players cid (initialPlayer cid uid uname)) =
              st.conns ++ [cid]
            rw [regSet_eq_append _ hk, keys_append, h1]
            rfl
          · show (st.conns ++ [cid]).Nodup
            rw [List.nodup_append]
            refine ⟨h2, List.nodup_singleton cid, ?_⟩
            intro x hx hx'
            rw [List.mem_singleton] at hx'
            subst hx'
            exact hcid hx
      | absent =>
          rw [step_connect_fail st cid Cred.absent rfl]
          exact ⟨h1, h2⟩
      | malformed =>
          rw [step_connect_fail st cid Cred.malformed rfl]
          exact ⟨h1, h2⟩
      | expired =>
          rw [step_connect_fail st cid Cred.expired rfl]
          exact ⟨h1, h2⟩
      | badSignature =>
          rw [step_connect_fail st cid Cred.badSignature rfl]
          exact ⟨h1, h2⟩
  | playerState cid state =>
      by_cases hc : cid ∈ st.conns
      · rw [step_playerState_mem st cid state hc]
        cases hg : regGet st.players cid with
        | none =>
            rw [onPlayerState_of_none state hg]
            exact ⟨h1, h2⟩
        | some current =>
            rw [onPlayerState_of_some state hg]
            refine ⟨?_, h2⟩
            show keys (regSet st.players cid (spreadObj current state)) = st.conns
            rw [keys_regSet_of_mem _ (mem_keys_of_regGet_some hg)]
            exact h1
      · rw [step_playerState_not_mem st cid state hc]
        exact ⟨h1, h2⟩
  | disconnect cid =>
      by_cases hc : cid ∈ st.conns
      · rw [step_disconnect_mem st cid hc]
        constructor
        · show keys (regDelete st.players cid) = st.conns.filter (fun c => c ≠ cid)
          rw [keys_regDelete, h1]
        · show (st.conns.filter (fun c => c ≠ cid)).Nodup
          exact h2.filter _
      · rw [step_disconnect_not_mem st cid hc]
        exact ⟨h1, h2⟩

/-- Witness for claim C5: the invariant holds for the one-player state with
"A" open and is preserved when "B" joins with a valid credential. -/
theorem c5_registry_invariant_preserved_witness :
    keys (SState.mk ["A"] [("A", initialPlayer "A" 1 "alice")]).players =
      (SState.mk ["A"] [("A", initialPlayer "A" 1 "alice")]).conns ∧
    (SState.mk ["A"] [("A", initialPlayer "A" 1 "alice")]).conns.Nodup ∧
    (keys (step (SState.mk ["A"] [("A", initialPlayer "A" 1 "alice")])
        (.connect "B" (.valid 2 "bob"))).1.players =
      (step (SState.mk ["A"] [("A", initialPlayer "A" 1 "alice")])
        (.connect "B" (.valid 2 "bob"))).1.conns ∧
     (step (SState.mk ["A"] [("A", initialPlayer "A" 1 "alice")])
        (.connect "B" (.valid 2 "bob"))).1.conns.Nodup) :=
  ⟨by decide, by decide,
   c5_registry_invariant_preserved
     (SState.mk ["A"] [("A", initialPlayer "A" 1 "alice")])
     (.connect "B" (.valid 2 "bob")) (by decide) (by decide)
     (by
       intro cid cred h
       injection h with hcid hcred
       subst hcid
       decide)⟩

/-- Claim C6: a connection whose handshake credential is absent, malformed,
expired, or fails signature verification is rejected by the `io.use`
middleware before the connection handler runs: the whole server state
(registry and open-connection list) is unchanged and nothing is emitted, so
no Player is ever constructed or inserted and the connection never becomes
active. -/
theorem c6_unauthorized_rejected_without_state (st : SState) (cid : String)
    (cred : Cred)
    (h : cred = .absent ∨ cred = .malformed ∨ cred = .expired ∨
      cred = .badSignature) :
    step st (.connect cid cred) = (st, []) := by
  rcases h with h | h | h | h <;> subst h <;> rfl

/-- Witness for claim C6: a connection attempt with no credential against the
one-player state changes nothing and emits nothing. -/
theorem c6_unauthorized_rejected_without_state_witness :
    (Cred.absent = Cred.absent ∨ Cred.absent = .malformed ∨
      Cred.absent = .expired ∨ Cred.absent = .badSignature) ∧
    step (SState.mk ["A"] [("A", initialPlayer "A" 1 "alice")])
        (.connect "B" Cred.absent) =
      (SState.mk ["A"] [("A", initialPlayer "A" 1 "alice")], []) :=
  ⟨Or.inl rfl,
   c6_unauthorized_rejected_without_state
     (SState.mk ["A"] [("A", initialPlayer "A" 1 "alice")]) "B" Cred.absent
     (Or.inl rfl)⟩

end MpGame
